import Mathlib

/-!
Verification of the github-exporter repository (`src/main.go`) against its
natural-language specification.  The Go program is shallowly embedded: each
Go function relevant to the claims becomes a Lean definition over explicit
data representing the GitHub API responses; `error` returns become `Except`,
and the one raw nil-pointer dereference of an optional field in event mode
is modelled with `Option` (a `none` result models the Go runtime panic).
-/

namespace GithubExporter

/-- Model of Go `time.Time` as carried by the program.  The program never
inspects the time value: it only copies it between records and renders it
with `time.Time.String()` (CSV/text) or via JSON marshalling (an RFC3339
string).  We therefore model a time point abstractly by its rendered string;
`GoTime.string` models `t.String()` and JSON marshalling quotes `repr`. -/
structure GoTime where
  repr : String
deriving DecidableEq, Repr

/-- `t.String()` on the modelled `time.Time`. -/
def GoTime.string (t : GoTime) : String := t.repr

/-- Go struct `Commit` (main.go:26-32): fields `Repo, SHA, Message, Author, Date`. -/
structure Commit where
  repo : String
  sha : String
  message : String
  author : String
  date : GoTime
deriving DecidableEq, Repr

/-- Go struct `PullRequest` (main.go:34-42). -/
structure PullRequest where
  repo : String
  number : Int
  title : String
  state : String
  author : String
  action : String
  date : GoTime
deriving DecidableEq, Repr

/-- Go struct `Issue` (main.go:44-52). -/
structure Issue where
  repo : String
  number : Int
  title : String
  state : String
  author : String
  action : String
  date : GoTime
deriving DecidableEq, Repr

/-- Go struct `Release` (main.go:54-61). -/
structure Release where
  repo : String
  tagName : String
  name : String
  author : String
  action : String
  date : GoTime
deriving DecidableEq, Repr

/-- Go struct `Watch` (main.go:63-68). -/
structure Watch where
  repo : String
  author : String
  action : String
  date : GoTime
deriving DecidableEq, Repr

/-- Go struct `Export` (main.go:18-24): the root aggregate.  Go slices are
modelled as lists; in this program every slice starts as the zero value
(`nil`) and grows only through `append`, so a collection is `nil` exactly
when it is empty — the empty list stands for the nil slice. -/
structure Export where
  commits : List Commit
  pullRequests : List PullRequest
  issues : List Issue
  releases : List Release
  watch : List Watch
deriving DecidableEq, Repr

/-- The Go zero value `Export{}` (all five slices nil). -/
def Export.empty : Export := ⟨[], [], [], [], []⟩

/-! ## JSON output (`outputJSON`, main.go:271-277)

`outputJSON` runs `json.MarshalIndent(export, "", "  ")` and writes the bytes
to the output file.  We embed the fragment of Go `encoding/json` semantics the
program exercises: a JSON syntax tree, the marshalling of each struct (fields
in declaration order, keys from the `json:"..."` tags), and the indented
renderer.  Crucially, Go marshals a nil slice as `null`, and in this program
a collection's slice is nil exactly when the collection is empty. -/

inductive Json where
  | null : Json
  | str : String → Json
  | num : Int → Json
  | arr : List Json → Json
  | obj : List (String × Json) → Json
deriving Repr

/-- Go `encoding/json` on a slice built purely by `append` from the zero
value: the nil (= empty, in this program) slice marshals as `null`, any
non-empty slice as an array of the marshalled elements. -/
def marshalGoSlice (f : α → Json) : List α → Json
  | [] => Json.null
  | x :: xs => Json.arr ((x :: xs).map f)

/-- Marshal a `Commit` (tags at main.go:26-32); `time.Time` marshals as an
RFC3339 string, modelled as the quoted `repr`. -/
def Commit.toJson (c : Commit) : Json :=
  Json.obj [("repo", Json.str c.repo), ("sha", Json.str c.sha),
    ("message", Json.str c.message), ("author", Json.str c.author),
    ("date", Json.str c.date.repr)]

/-- Marshal a `PullRequest` (tags at main.go:34-42). -/
def PullRequest.toJson (p : PullRequest) : Json :=
  Json.obj [("repo", Json.str p.repo), ("number", Json.num p.number),
    ("title", Json.str p.title), ("state", Json.str p.state),
    ("author", Json.str p.author), ("action", Json.str p.action),
    ("date", Json.str p.date.repr)]

/-- Marshal an `Issue` (tags at main.go:44-52). -/
def Issue.toJson (i : Issue) : Json :=
  Json.obj [("repo", Json.str i.repo), ("number", Json.num i.number),
    ("title", Json.str i.title), ("state", Json.str i.state),
    ("author", Json.str i.author), ("action", Json.str i.action),
    ("date", Json.str i.date.repr)]

/-- Marshal a `Release` (tags at main.go:54-61). -/
def Release.toJson (r : Release) : Json :=
  Json.obj [("repo", Json.str r.repo), ("tag_name", Json.str r.tagName),
    ("name", Json.str r.name), ("author", Json.str r.author),
    ("action", Json.str r.action), ("date", Json.str r.date.repr)]

/-- Marshal a `Watch` (tags at main.go:63-68). -/
def Watch.toJson (w : Watch) : Json :=
  Json.obj [("repo", Json.str w.repo), ("author", Json.str w.author),
    ("action", Json.str w.action), ("date", Json.str w.date.repr)]

/-- Marshal the `Export` root (tags at main.go:18-24): all five keys are
always emitted, in struct declaration order. -/
def Export.toJson (e : Export) : Json :=
  Json.obj [("commits", marshalGoSlice Commit.toJson e.commits),
    ("pull_requests", marshalGoSlice PullRequest.toJson e.pullRequests),
    ("issues", marshalGoSlice Issue.toJson e.issues),
    ("releases", marshalGoSlice Release.toJson e.releases),
    ("watch", marshalGoSlice Watch.toJson e.watch)]

/-- The indentation prefix at nesting depth `n` for `MarshalIndent` with
prefix `""` and indent `"  "` (two spaces per level). -/
def nspace (n : Nat) : String := String.join (List.replicate n "  ")

/-- JSON string quoting (the program's strings need no escaping to state the
claims; escaping is outside the modelled fragment). -/
def jsonQuote (s : String) : String := "\"" ++ s ++ "\""

mutual

/-- Render a marshalled value the way `json.MarshalIndent(v, "", "  ")`
lays it out, at nesting depth `d`. -/
def Json.render : Json → Nat → String
  | Json.null, _ => "null"
  | Json.str s, _ => jsonQuote s
  | Json.num n, _ => toString n
  | Json.arr [], _ => "[]"
  | Json.arr (x :: xs), d =>
      "[\n" ++ Json.renderItems (x :: xs) (d + 1) ++ "\n" ++ nspace d ++ "]"
  | Json.obj [], _ => "\x7b\x7d"
  | Json.obj (f :: fs), d =>
      "\x7b\n" ++ Json.renderFields (f :: fs) (d + 1) ++ "\n" ++ nspace d ++ "\x7d"

/-- Comma-and-newline separated array elements, each indented to depth `d`. -/
def Json.renderItems : List Json → Nat → String
  | [], _ => ""
  | [x], d => nspace d ++ Json.render x d
  | x :: y :: xs, d =>
      nspace d ++ Json.render x d ++ ",\n" ++ Json.renderItems (y :: xs) d

/-- Comma-and-newline separated object fields, each `"key": value` indented
to depth `d`. -/
def Json.renderFields : List (String × Json) → Nat → String
  | [], _ => ""
  | [(k, v)], d => nspace d ++ jsonQuote k ++ ": " ++ Json.render v d
  | (k, v) :: g :: fs, d =>
      nspace d ++ jsonQuote k ++ ": " ++ Json.render v d ++ ",\n" ++
        Json.renderFields (g :: fs) d

end

/-- The bytes `outputJSON` (main.go:271-277) writes to the output file. -/
def outputJSONString (e : Export) : String := (Export.toJson e).render 0

/-- Observation helper: the keys of a marshalled object, in emission order. -/
def Json.objKeys : Json → List String
  | Json.obj fs => fs.map Prod.fst
  | _ => []

/-- Observation helper: the value stored under key `k` in a marshalled
object (first occurrence). -/
def Json.field : Json → String → Option Json
  | Json.obj fs, k => (fs.find? (fun f => f.fst == k)).map Prod.snd
  | _, _ => none

/-! ## CSV output (`outputCSV`, main.go:279-341)

`outputCSV` opens the file, writes one header row, then one row per record
of the collection selected by `kind`; a kind matching no case writes no
rows and returns nil.  We embed the sequence of rows handed to the CSV
writer (the file-system layer is outside the model; `csv.Writer` writes the
rows it is given in order). -/

/-- The fixed header row (main.go:290). -/
def csvHeader : List String := ["Type", "Repo", "ID", "Title", "State", "Author", "Date"]

/-- A commit's CSV row (main.go:299). -/
def commitRow (c : Commit) : List String :=
  ["Commit", c.repo, c.sha, c.message, "", c.author, c.date.string]

/-- A pull request's CSV row (main.go:307); `fmt.Sprintf("%d", n)` is
decimal rendering of the number. -/
def prRow (p : PullRequest) : List String :=
  ["PullRequest", p.repo, toString p.number, p.title, p.state, p.author, p.date.string]

/-- An issue's CSV row (main.go:316). -/
def issueRow (i : Issue) : List String :=
  ["Issue", i.repo, toString i.number, i.title, i.state, i.author, i.date.string]

/-- A release's CSV row (main.go:325). -/
def releaseRow (r : Release) : List String :=
  ["Release", r.repo, r.tagName, r.name, "", r.author, r.date.string]

/-- A watch record's CSV row (main.go:333): ID, Title and State positions
are empty and `watch.Action` is written in the position under the header's
`Author` column. -/
def watchRow (w : Watch) : List String :=
  ["Watch", w.repo, "", "", "", w.action, w.date.string]

/-- The rows `outputCSV` (main.go:279-341) hands to the CSV writer: the
header, then the rows of the collection selected by `kind` (a `kind`
matching no case of the switch adds no rows and is not an error). -/
def outputCSVRows (e : Export) (kind : String) : List (List String) :=
  csvHeader ::
    (match kind with
     | "commits" => e.commits.map commitRow
     | "pull_requests" => e.pullRequests.map prRow
     | "issues" => e.issues.map issueRow
     | "releases" => e.releases.map releaseRow
     | "watch" => e.watch.map watchRow
     | _ => [])

/-! ## Bulk-mode Data Fetcher (`fetchGitHubData`, main.go:170-269)

The GitHub API is the external collaborator; we model the ground data it
serves.  Each list endpoint is paged: a single request returns at most
`per_page` results.  `fetchGitHubData` performs exactly one request per
endpoint (it never follows a next page): one `ListByAuthenticatedUser` call
with `PerPage: 100`, and per repository one list call — `ListCommits` with
`PerPage: 100` and `Author: username`, while `PullRequests.List`,
`Issues.ListByRepo` and `ListReleases` receive `nil` options, so the server
answers with its documented default page size of 30. -/

/-- A repository as listed by the API.  The program dereferences
`repo.Owner.Login` and `repo.Name` without nil checks; the list endpoint
always populates them, so they are modelled as plain fields. -/
structure Repo where
  ownerLogin : String
  name : String
deriving DecidableEq, Repr

/-- A `github.RepositoryCommit` as consumed at main.go:204-211, with the
dereferenced nested fields (`commit.SHA`, `commit.Commit.Message`,
`commit.Commit.Author.Name`, `commit.Commit.Author.Date.Time`) flattened. -/
structure CommitData where
  sha : String
  message : String
  authorName : String
  authorDate : GoTime
deriving DecidableEq, Repr

/-- A `github.PullRequest` as consumed at main.go:220-228, nested
`pr.User.Login` flattened. -/
structure PRData where
  number : Int
  title : String
  state : String
  userLogin : String
  createdAt : GoTime
deriving DecidableEq, Repr

/-- A `github.Issue` as consumed at main.go:236-247; `pullRequestLinks`
is true when the API entry carries a non-nil `PullRequestLinks` field
(the issue is really a pull request). -/
structure IssueData where
  number : Int
  title : String
  state : String
  userLogin : String
  createdAt : GoTime
  pullRequestLinks : Bool
deriving DecidableEq, Repr

/-- A `github.RepositoryRelease` as consumed at main.go:255-262, nested
`release.Author.Login` flattened. -/
structure ReleaseData where
  tagName : String
  name : String
  authorLogin : String
  createdAt : GoTime
deriving DecidableEq, Repr

/-- The ground data the GitHub API serves during one bulk run: the
authenticated user's login, the full owner-affiliated repository list in
API order, and per `(owner, repo)` the full result lists each endpoint
pages over (`commits` additionally keyed by the `Author` filter).  The
claims under test concern successful API responses, so transport errors
(which `run` propagates unchanged, main.go:145-147) are not modelled. -/
structure GitHubAPI where
  userLogin : String
  ownedRepos : List Repo
  commits : String → String → String → List CommitData
  pullRequests : String → String → List PRData
  issues : String → String → List IssueData
  releases : String → String → List ReleaseData

/-- One paged request: the server returns at most `perPage` results,
starting at the first page. -/
def servePage (perPage : Nat) (xs : List α) : List α := xs.take perPage

/-- GitHub's documented default page size, used when a list call passes
`nil` options. -/
def defaultPerPage : Nat := 30

/-- Conversion at main.go:205-211: commit data to a `Commit` record
(`Repo` is the repository name, not `owner/name`). -/
def commitRecord (repo : Repo) (c : CommitData) : Commit :=
  { repo := repo.name, sha := c.sha, message := c.message,
    author := c.authorName, date := c.authorDate }

/-- Conversion at main.go:221-228: the `State` field is copied and
`Action` is never assigned, so it stays Go's zero value `""`. -/
def prRecord (repo : Repo) (p : PRData) : PullRequest :=
  { repo := repo.name, number := p.number, title := p.title,
    state := p.state, author := p.userLogin, action := "", date := p.createdAt }

/-- Conversion at main.go:238-245: `Action` stays the zero value `""`. -/
def issueRecord (repo : Repo) (i : IssueData) : Issue :=
  { repo := repo.name, number := i.number, title := i.title,
    state := i.state, author := i.userLogin, action := "", date := i.createdAt }

/-- Conversion at main.go:256-262: `Action` stays the zero value `""`. -/
def releaseRecord (repo : Repo) (r : ReleaseData) : Release :=
  { repo := repo.name, tagName := r.tagName, name := r.name,
    author := r.authorLogin, action := "", date := r.createdAt }

/-- One iteration of the `for _, repo := range repos` loop
(main.go:191-267): a `switch` on `kind`, each case issuing one list call
for this repository and appending the converted records; the `default`
case returns the unsupported-kind error, which aborts the loop. -/
def fetchStep (api : GitHubAPI) (username : String) (kind : String)
    (ex : Export) (repo : Repo) : Except String Export :=
  match kind with
  | "commits" =>
      let commits := servePage 100 (api.commits repo.ownerLogin repo.name username)
      Except.ok { ex with
        commits := ex.commits ++ commits.map (commitRecord repo) }
  | "pull_requests" =>
      let prs := servePage defaultPerPage (api.pullRequests repo.ownerLogin repo.name)
      Except.ok { ex with
        pullRequests := ex.pullRequests ++ prs.map (prRecord repo) }
  | "issues" =>
      let issues := servePage defaultPerPage (api.issues repo.ownerLogin repo.name)
      Except.ok { ex with
        issues := ex.issues ++
          (issues.filter (fun i => !i.pullRequestLinks)).map (issueRecord repo) }
  | "releases" =>
      let releases := servePage defaultPerPage (api.releases repo.ownerLogin repo.name)
      Except.ok { ex with
        releases := ex.releases ++ releases.map (releaseRecord repo) }
  | _ => Except.error ("unsupported kind: " ++ kind)

/-- `fetchGitHubData` (main.go:170-269): one `ListByAuthenticatedUser`
request with `PerPage: 100, Affiliation: "owner"` (the response's paging
links are discarded, so only the first page is seen), one `Users.Get` for
the username, then the per-repository loop starting from `Export{}`. -/
def fetchGitHubData (api : GitHubAPI) (kind : String) : Except String Export :=
  let repos := servePage 100 api.ownedRepos
  let username := api.userLogin
  repos.foldlM (fetchStep api username kind) Export.empty

/-- Modelled from the spec's words, for comparison with the code (claim C1):
the commits the spec promises — the requested kind's records "from every
repository owned by the authenticated user and from every page of results",
flattened in repository-list order then page order. -/
def specAllOwnedCommits (api : GitHubAPI) : List Commit :=
  api.ownedRepos.flatMap (fun r =>
    (api.commits r.ownerLogin r.name api.userLogin).map (commitRecord r))

/-! ## Event-mode Event Fetcher (`fetchGitHubEvents`, main.go:386-472)

Event mode pages through `ListEventsPerformedByUser` with `PerPage: 100`,
following `resp.NextPage` until it is 0; each page either fails (the error
is returned at once, and `run` then discards the accumulated export) or
yields a list of events.  Per event, the code skips foreign actors, parses
the payload (a parse error skips just that event), and dispatches on the
event type.  Every field access uses a nil-safe `GetX` accessor — except
`*commit.Message` in the PushEvent branch (main.go:418), a raw dereference
of an optional field; we model optional payload fields with `Option`, the
nil-safe accessors with `Option.getD` of the Go zero value, and this one
raw dereference so that its nil case (`none`) models the runtime panic. -/

/-- A commit inside a `PushEvent` payload: both fields are optional in the
API type; `sha` is read via nil-safe `GetSHA()`, `message` via `*commit.Message`. -/
structure PushCommitData where
  sha : Option String
  message : Option String
deriving DecidableEq, Repr

/-- The typed payload `ParsePayload` returns, flattened to the fields the
program reads through chains of nil-safe accessors (e.g.
`p.GetPullRequest().GetNumber()`). The `other` constructor covers event
types the switch ignores. -/
inductive EventPayload where
  | push (commits : List PushCommitData)
  | pullRequest (number : Option Int) (title : Option String) (action : Option String)
  | issuesPayload (number : Option Int) (title : Option String) (action : Option String)
  | release (tagName : Option String) (name : Option String) (action : Option String)
  | watchPayload (action : Option String)
  | other
deriving DecidableEq, Repr

deriving instance DecidableEq for Except

/-- One event of the feed: actor login and repo name read via nil-safe
accessors, the type tag, the creation time (`event.GetCreatedAt().Time`),
and the result of `event.ParsePayload()` (`Except.error ()` when the
payload fails to decode). -/
structure EventData where
  actorLogin : Option String
  typ : String
  repoName : Option String
  createdAt : GoTime
  payload : Except Unit EventPayload
deriving DecidableEq, Repr

/-- The body of the `for _, event := range events` loop (main.go:401-463).
`none` models the Go runtime panic raised by `*commit.Message` when a
pushed commit has no message; every other path is total.  A payload whose
constructor does not match the event type fails the Go type assertion's
`ok` test and is skipped silently, like the unlisted event types. -/
def processEvent (username : String) (ex : Export) (e : EventData) : Option Export :=
  if e.actorLogin.getD "" ≠ username then some ex
  else
    match e.payload with
    | Except.error _ => some ex
    | Except.ok payload =>
      match e.typ with
      | "PushEvent" =>
        match payload with
        | EventPayload.push commits =>
            commits.foldlM (fun ex2 c =>
              match c.message with
              | some msg => some { ex2 with commits := ex2.commits ++
                  [{ repo := e.repoName.getD "", sha := c.sha.getD "",
                     message := msg, author := "", date := e.createdAt }] }
              | none => none) ex
        | _ => some ex
      | "PullRequestEvent" =>
        match payload with
        | EventPayload.pullRequest number title act =>
            some { ex with pullRequests := ex.pullRequests ++
              [{ repo := e.repoName.getD "", number := number.getD 0,
                 title := title.getD "", state := "", author := "",
                 action := act.getD "", date := e.createdAt }] }
        | _ => some ex
      | "IssuesEvent" =>
        match payload with
        | EventPayload.issuesPayload number title act =>
            some { ex with issues := ex.issues ++
              [{ repo := e.repoName.getD "", number := number.getD 0,
                 title := title.getD "", state := "", author := "",
                 action := act.getD "", date := e.createdAt }] }
        | _ => some ex
      | "ReleaseEvent" =>
        match payload with
        | EventPayload.release tag name act =>
            some { ex with releases := ex.releases ++
              [{ repo := e.repoName.getD "", tagName := tag.getD "",
                 name := name.getD "", author := "", action := act.getD "",
                 date := e.createdAt }] }
        | _ => some ex
      | "WatchEvent" =>
        match payload with
        | EventPayload.watchPayload act =>
            some { ex with watch := ex.watch ++
              [{ repo := e.repoName.getD "", author := "",
                 action := act.getD "", date := e.createdAt }] }
        | _ => some ex
      | _ => some ex

/-- The event feed the API serves: the authenticated user's login
(`*user.Login`, populated for the authenticated user) and the successive
pages the paging loop would fetch, each either a transport error or a list
of events (the last list entry is the page whose response carries
`NextPage == 0`). -/
structure EventsAPI where
  userLogin : String
  pages : List (Except String (List EventData))

/-- The `for` paging loop of `fetchGitHubEvents` (main.go:395-469): fetch a
page; on error return the accumulated export together with the error
(main.go:398); otherwise process the page's events and continue until the
response reports no next page.  The outer `Option` models the possible
runtime panic inside event processing. -/
def fetchEventsLoop (username : String) :
    List (Except String (List EventData)) → Export → Option (Export × Option String)
  | [], ex => some (ex, none)
  | Except.error err :: _, ex => some (ex, some err)
  | Except.ok events :: rest, ex =>
      (events.foldlM (processEvent username) ex).bind (fetchEventsLoop username rest)

/-- `fetchGitHubEvents` (main.go:386-472): resolve the user once, then run
the paging loop from `Export{}`. -/
def fetchGitHubEvents (api : EventsAPI) : Option (Export × Option String) :=
  fetchEventsLoop api.userLogin api.pages Export.empty

/-- The `run` wrapper around event mode (main.go:137-148): when
`fetchGitHubEvents` reports an error the error is returned before any
output is produced, discarding the accumulated export; otherwise the
export goes on to the Output Writer. -/
def runEvents (api : EventsAPI) : Option (Except String Export) :=
  (fetchGitHubEvents api).map (fun r =>
    match r.snd with
    | some err => Except.error err
    | none => Except.ok r.fst)

/-! ## Concrete instances used by counterexamples and witnesses -/

/-- A fixed timestamp (its `time.Time.String()` rendering). -/
def t0 : GoTime := ⟨"2024-05-01 12:00:00 +0000 UTC"⟩

/-- A demo repository owned by the authenticated user. -/
def demoRepo : Repo := ⟨"alice", "widget"⟩

/-- A demo issue without pull-request linkage. -/
def demoIssue1 : IssueData := ⟨7, "bug", "open", "bob", t0, false⟩

/-- A demo issue that carries pull-request linkage. -/
def demoIssue2 : IssueData := ⟨8, "pr-backed", "open", "bob", t0, true⟩

/-- A demo commit by the authenticated user. -/
def demoCommit1 : CommitData := ⟨"abc123", "fix build", "alice", t0⟩

/-- A small, fully populated API world: one owned repository with one
commit, one pull request, two issues (one pull-request-backed) and one
release. -/
def demoAPI : GitHubAPI :=
  { userLogin := "alice",
    ownedRepos := [demoRepo],
    commits := fun _ _ _ => [demoCommit1],
    pullRequests := fun _ _ => [⟨3, "add feature", "open", "alice", t0⟩],
    issues := fun _ _ => [demoIssue1, demoIssue2],
    releases := fun _ _ => [⟨"v1.0.0", "v1.0", "alice", t0⟩] }

/-- The export a kind=commits bulk run over `demoAPI` produces. -/
def demoCommitsExport : Export :=
  { Export.empty with commits := [commitRecord demoRepo demoCommit1] }

/-- The export a kind=issues bulk run over `demoAPI` produces. -/
def demoIssuesExport : Export :=
  { Export.empty with issues := [issueRecord demoRepo demoIssue1] }

/-- An API world whose authenticated user owns no repositories. -/
def emptyReposAPI : GitHubAPI :=
  { userLogin := "alice",
    ownedRepos := [],
    commits := fun _ _ _ => [],
    pullRequests := fun _ _ => [],
    issues := fun _ _ => [],
    releases := fun _ _ => [] }

/-- An API world with one repository holding 101 commits by the user:
one more than fits in the single page-size-100 request the program
issues. -/
def manyCommitsAPI : GitHubAPI :=
  { userLogin := "alice",
    ownedRepos := [demoRepo],
    commits := fun _ _ _ => (List.range 101).map (fun i => ⟨toString i, "work", "alice", t0⟩),
    pullRequests := fun _ _ => [],
    issues := fun _ _ => [],
    releases := fun _ _ => [] }

/-- A demo Watch record and an export holding only it. -/
def demoWatch : Watch := ⟨"widget", "", "started", t0⟩

/-- An export whose only populated collection is `watch`. -/
def demoExportWatch : Export := { Export.empty with watch := [demoWatch] }

/-- A PushEvent by the authenticated user with two commits, both
carrying messages. -/
def pushEventDemo : EventData :=
  { actorLogin := some "alice", typ := "PushEvent",
    repoName := some "alice/widget", createdAt := t0,
    payload := Except.ok (EventPayload.push
      [⟨some "abc", some "first"⟩, ⟨some "def", some "second"⟩]) }

/-- A WatchEvent by the authenticated user. -/
def watchEventDemo : EventData :=
  { actorLogin := some "alice", typ := "WatchEvent",
    repoName := some "alice/widget", createdAt := t0,
    payload := Except.ok (EventPayload.watchPayload (some "started")) }

/-- An event whose payload fails to decode. -/
def badPayloadEvent : EventData :=
  { actorLogin := some "alice", typ := "PushEvent",
    repoName := some "alice/widget", createdAt := t0,
    payload := Except.error () }

/-- A PushEvent that decodes successfully but whose single pushed commit
has no `message` field (`commit.Message == nil`). -/
def pushEventNilMsg : EventData :=
  { actorLogin := some "alice", typ := "PushEvent",
    repoName := some "alice/widget", createdAt := t0,
    payload := Except.ok (EventPayload.push [⟨some "abc", none⟩]) }

/-! ## Helper lemmas: the repository loop flattened -/

theorem fetchStep_unsupported (api : GitHubAPI) (u kind : String) (ex : Export) (r : Repo)
    (h : kind ∉ (["commits", "pull_requests", "issues", "releases"] : List String)) :
    fetchStep api u kind ex r = Except.error ("unsupported kind: " ++ kind) := by
  unfold fetchStep
  split <;> simp_all

theorem foldl_fetch_commits (api : GitHubAPI) (u : String) (repos : List Repo) (ex : Export) :
    repos.foldlM (fetchStep api u "commits") ex =
      Except.ok { ex with commits := ex.commits ++ repos.flatMap (fun r =>
        (servePage 100 (api.commits r.ownerLogin r.name u)).map (commitRecord r)) } := by
  induction repos generalizing ex with
  | nil => simp [pure, Except.pure]
  | cons r rs ih => simp [fetchStep, ih, Bind.bind, Except.bind, List.append_assoc]

theorem foldl_fetch_prs (api : GitHubAPI) (u : String) (repos : List Repo) (ex : Export) :
    repos.foldlM (fetchStep api u "pull_requests") ex =
      Except.ok { ex with pullRequests := ex.pullRequests ++ repos.flatMap (fun r =>
        (servePage defaultPerPage (api.pullRequests r.ownerLogin r.name)).map (prRecord r)) } := by
  induction repos generalizing ex with
  | nil => simp [pure, Except.pure]
  | cons r rs ih => simp [fetchStep, ih, Bind.bind, Except.bind, List.append_assoc]

theorem foldl_fetch_issues (api : GitHubAPI) (u : String) (repos : List Repo) (ex : Export) :
    repos.foldlM (fetchStep api u "issues") ex =
      Except.ok { ex with issues := ex.issues ++ repos.flatMap (fun r =>
        ((servePage defaultPerPage (api.issues r.ownerLogin r.name)).filter
          (fun i => !i.pullRequestLinks)).map (issueRecord r)) } := by
  induction repos generalizing ex with
  | nil => simp [pure, Except.pure]
  | cons r rs ih => simp [fetchStep, ih, Bind.bind, Except.bind, List.append_assoc]

theorem foldl_fetch_releases (api : GitHubAPI) (u : String) (repos : List Repo) (ex : Export) :
    repos.foldlM (fetchStep api u "releases") ex =
      Except.ok { ex with releases := ex.releases ++ repos.flatMap (fun r =>
        (servePage defaultPerPage (api.releases r.ownerLogin r.name)).map (releaseRecord r)) } := by
  induction repos generalizing ex with
  | nil => simp [pure, Except.pure]
  | cons r rs ih => simp [fetchStep, ih, Bind.bind, Except.bind, List.append_assoc]

/-! ## Helper lemmas: event processing -/

theorem processEvent_parseError (u : String) (ex : Export) (e : EventData)
    (h : e.payload = Except.error ()) : processEvent u ex e = some ex := by
  unfold processEvent
  rw [h]
  split <;> rfl

theorem foldlM_processEvent_skip (u : String) (bad : EventData)
    (hbad : ∀ ex2 : Export, processEvent u ex2 bad = some ex2)
    (pre post : List EventData) (ex : Export) :
    List.foldlM (processEvent u) ex (pre ++ bad :: post) =
      List.foldlM (processEvent u) ex (pre ++ post) := by
  induction pre generalizing ex with
  | nil => simp [List.foldlM_cons, hbad, Bind.bind, Option.bind]
  | cons a pre ih =>
      simp only [List.cons_append, List.foldlM_cons]
      cases processEvent u ex a <;> simp [Bind.bind, Option.bind, ih]

theorem pushCommits_foldlM (rn : String) (d : GoTime)
    (commits : List PushCommitData) (ex : Export)
    (hm : ∀ c ∈ commits, c.message.isSome) :
    commits.foldlM (fun ex2 c =>
      match c.message with
      | some msg => some { ex2 with commits := ex2.commits ++
          [{ repo := rn, sha := c.sha.getD "", message := msg, author := "", date := d }] }
      | none => none) ex
    = some { ex with commits := ex.commits ++ commits.map (fun c =>
        { repo := rn, sha := c.sha.getD "", message := c.message.getD "",
          author := "", date := d }) } := by
  induction commits generalizing ex with
  | nil => simp [pure]
  | cons c cs ih =>
      obtain ⟨msg, hmsg⟩ := Option.isSome_iff_exists.mp (hm c (by simp))
      have hrest : ∀ c2 ∈ cs, c2.message.isSome := fun c2 h2 => hm c2 (by simp [h2])
      simp only [List.foldlM_cons, hmsg, Bind.bind, Option.bind]
      rw [ih _ hrest]
      simp [hmsg, List.append_assoc]

theorem pushCommits_foldlM_isSome (rn : String) (d : GoTime)
    (commits : List PushCommitData) (ex : Export) :
    (commits.foldlM (fun (ex2 : Export) (c : PushCommitData) =>
      (match c.message with
      | some msg => some { ex2 with commits := ex2.commits ++
          [{ repo := rn, sha := c.sha.getD "", message := msg, author := "", date := d }] }
      | none => none : Option Export)) ex).isSome ↔
      ∀ c ∈ commits, c.message.isSome := by
  induction commits generalizing ex with
  | nil => simp [pure]
  | cons c cs ih =>
      cases hmsg : c.message with
      | none =>
          have hnot : ¬ (∀ c2 ∈ c :: cs, c2.message.isSome = true) := by
            intro h
            have := h c (by simp)
            rw [hmsg] at this
            simp at this
          simp [List.foldlM_cons, hmsg, Bind.bind, Option.bind, hnot]
      | some msg =>
          simp [List.foldlM_cons, hmsg, Bind.bind, Option.bind, ih,
            List.forall_mem_cons]

/-! ## Claim theorems -/

/-- C1 (counterexample): the claim says bulk mode returns the requested
kind's records from every owned repository and every page of results.  In
the code no paging loop exists: with one repository holding 101 commits,
the single page-size-100 request leaves the 101st commit out of the
export, while the spec-modelled expectation has all 101. -/
theorem c1_counterexample :
    Except.map (fun e => e.commits.length) (fetchGitHubData manyCommitsAPI "commits") =
      Except.ok 100 ∧
    (specAllOwnedCommits manyCommitsAPI).length = 101 := ⟨rfl, rfl⟩

/-- C1 (amended): in bulk mode, for every supported kind, the Data Fetcher
returns an Export containing that kind's records from the first page (page
size 100) of repositories owned by the authenticated user and, per
repository, from the first page of that kind's results (commits requested
with page size 100 and author = authenticated user; pull requests, issues
and releases requested with default options, hence the server default page
size), flattened in repository-list order then result order. -/
theorem c1_bulk_first_page_only (api : GitHubAPI) :
    fetchGitHubData api "commits" =
      Except.ok { Export.empty with commits := (servePage 100 api.ownedRepos).flatMap (fun r =>
        (servePage 100 (api.commits r.ownerLogin r.name api.userLogin)).map
          (commitRecord r)) } ∧
    fetchGitHubData api "pull_requests" =
      Except.ok { Export.empty with pullRequests := (servePage 100 api.ownedRepos).flatMap (fun r =>
        (servePage defaultPerPage (api.pullRequests r.ownerLogin r.name)).map
          (prRecord r)) } ∧
    fetchGitHubData api "issues" =
      Except.ok { Export.empty with issues := (servePage 100 api.ownedRepos).flatMap (fun r =>
        ((servePage defaultPerPage (api.issues r.ownerLogin r.name)).filter
          (fun i => !i.pullRequestLinks)).map (issueRecord r)) } ∧
    fetchGitHubData api "releases" =
      Except.ok { Export.empty with releases := (servePage 100 api.ownedRepos).flatMap (fun r =>
        (servePage defaultPerPage (api.releases r.ownerLogin r.name)).map
          (releaseRecord r)) } := by
  refine ⟨?_, ?_, ?_, ?_⟩ <;>
    simp [fetchGitHubData, foldl_fetch_commits, foldl_fetch_prs,
      foldl_fetch_issues, foldl_fetch_releases, Export.empty]

/-- C2 (counterexample): the claim says an unsupported kind fails for every
repository list, including an empty one.  In the code the kind switch sits
inside the per-repository loop, so with zero owned repositories the run
succeeds and returns the empty Export instead of failing. -/
theorem c2_counterexample :
    fetchGitHubData emptyReposAPI "bogus" = Except.ok Export.empty := rfl

/-- C2 (amended): for every kind outside
{commits, pull_requests, issues, releases}, if the authenticated user owns
at least one repository the run fails with the unsupported-kind error (and
no records are exported with it); if the user owns zero repositories the
run instead succeeds with the empty Export. -/
theorem c2_unsupported_kind (api : GitHubAPI) (kind : String)
    (hk : kind ∉ (["commits", "pull_requests", "issues", "releases"] : List String)) :
    (api.ownedRepos ≠ [] →
      fetchGitHubData api kind = Except.error ("unsupported kind: " ++ kind)) ∧
    (api.ownedRepos = [] → fetchGitHubData api kind = Except.ok Export.empty) := by
  constructor
  · intro hne
    have h1 : servePage 100 api.ownedRepos ≠ [] := by
      intro hnil
      rw [servePage] at hnil
      rcases List.take_eq_nil_iff.mp hnil with h | h
      · simp at h
      · exact hne h
    obtain ⟨r, rs, hr⟩ := List.exists_cons_of_ne_nil h1
    unfold fetchGitHubData
    rw [hr]
    simp [List.foldlM_cons, fetchStep_unsupported, hk, Bind.bind, Except.bind]
  · intro h
    simp [fetchGitHubData, h, servePage, pure, Except.pure]

/-- C2 (witness): with the demo world (one owned repository) and
kind=bogus, the run fails with the unsupported-kind error. -/
theorem c2_witness :
    fetchGitHubData demoAPI "bogus" = Except.error ("unsupported kind: " ++ "bogus") :=
  (c2_unsupported_kind demoAPI "bogus" (by decide)).1 (by decide)

/-- C3 (counterexample): the claim says every unpopulated collection
renders as an empty sequence `[]`.  Go marshals the nil slices of `Export{}`
as `null`: the actual bytes for an empty export show `null` for all five
collections, and `null` is not the empty array. -/
theorem c3_counterexample :
    outputJSONString Export.empty =
      "\x7b\n  \"commits\": null,\n  \"pull_requests\": null,\n  \"issues\": null,\n  \"releases\": null,\n  \"watch\": null\n\x7d" ∧
    Json.null ≠ Json.arr [] :=
  ⟨rfl, fun h => nomatch h⟩

/-- C3 (amended): for every Export, JSON output serializes all five
collections regardless of the requested kind (all five keys are present, in
a fixed order), pretty-printed with two-space indentation; a populated
collection renders as the array of its records in order, but an unpopulated
collection renders as `null`, not as `[]`. -/
theorem c3_json_five_collections (e : Export) :
    (Export.toJson e).objKeys = ["commits", "pull_requests", "issues", "releases", "watch"] ∧
    (e.commits = [] → (Export.toJson e).field "commits" = some Json.null) ∧
    (e.commits ≠ [] →
      (Export.toJson e).field "commits" = some (Json.arr (e.commits.map Commit.toJson))) ∧
    (e.pullRequests = [] → (Export.toJson e).field "pull_requests" = some Json.null) ∧
    (e.pullRequests ≠ [] →
      (Export.toJson e).field "pull_requests" =
        some (Json.arr (e.pullRequests.map PullRequest.toJson))) ∧
    (e.issues = [] → (Export.toJson e).field "issues" = some Json.null) ∧
    (e.issues ≠ [] →
      (Export.toJson e).field "issues" = some (Json.arr (e.issues.map Issue.toJson))) ∧
    (e.releases = [] → (Export.toJson e).field "releases" = some Json.null) ∧
    (e.releases ≠ [] →
      (Export.toJson e).field "releases" = some (Json.arr (e.releases.map Release.toJson))) ∧
    (e.watch = [] → (Export.toJson e).field "watch" = some Json.null) ∧
    (e.watch ≠ [] →
      (Export.toJson e).field "watch" = some (Json.arr (e.watch.map Watch.toJson))) := by
  refine ⟨rfl, ?_, ?_, ?_, ?_, ?_, ?_, ?_, ?_, ?_, ?_⟩ <;> intro h
  case _ => simp [Export.toJson, Json.field, marshalGoSlice, h]
  case _ =>
    obtain ⟨x, xs, hx⟩ := List.exists_cons_of_ne_nil h
    simp [Export.toJson, Json.field, marshalGoSlice, hx]
  case _ => simp [Export.toJson, Json.field, marshalGoSlice, h]
  case _ =>
    obtain ⟨x, xs, hx⟩ := List.exists_cons_of_ne_nil h
    simp [Export.toJson, Json.field, marshalGoSlice, hx]
  case _ => simp [Export.toJson, Json.field, marshalGoSlice, h]
  case _ =>
    obtain ⟨x, xs, hx⟩ := List.exists_cons_of_ne_nil h
    simp [Export.toJson, Json.field, marshalGoSlice, hx]
  case _ => simp [Export.toJson, Json.field, marshalGoSlice, h]
  case _ =>
    obtain ⟨x, xs, hx⟩ := List.exists_cons_of_ne_nil h
    simp [Export.toJson, Json.field, marshalGoSlice, hx]
  case _ => simp [Export.toJson, Json.field, marshalGoSlice, h]
  case _ =>
    obtain ⟨x, xs, hx⟩ := List.exists_cons_of_ne_nil h
    simp [Export.toJson, Json.field, marshalGoSlice, hx]

/-- C3 (witness): on an export that populates watch only, the watch key
holds the one-record array. -/
theorem c3_witness :
    (Export.toJson demoExportWatch).field "watch" =
      some (Json.arr (demoExportWatch.watch.map Watch.toJson)) :=
  (c3_json_five_collections demoExportWatch).2.2.2.2.2.2.2.2.2.2 (by decide)

/-- C4: for every Export and every kind, the CSV writer emits exactly one
header row of 7 fixed column names, followed by one data row per record of
the collection matching the kind; an unrecognized kind produces the header
only, and the write is not an error (the switch has no failing default). -/
theorem c4_csv_header_and_rows (e : Export) (kind : String) :
    (outputCSVRows e kind).head? = some csvHeader ∧
    csvHeader.length = 7 ∧
    (kind = "commits" → ((outputCSVRows e kind).tail).length = e.commits.length) ∧
    (kind = "pull_requests" → ((outputCSVRows e kind).tail).length = e.pullRequests.length) ∧
    (kind = "issues" → ((outputCSVRows e kind).tail).length = e.issues.length) ∧
    (kind = "releases" → ((outputCSVRows e kind).tail).length = e.releases.length) ∧
    (kind = "watch" → ((outputCSVRows e kind).tail).length = e.watch.length) ∧
    (kind ∉ (["commits", "pull_requests", "issues", "releases", "watch"] : List String) →
      (outputCSVRows e kind).tail = []) := by
  refine ⟨rfl, rfl, ?_, ?_, ?_, ?_, ?_, ?_⟩ <;> intro h
  case _ => subst h; simp [outputCSVRows]
  case _ => subst h; simp [outputCSVRows]
  case _ => subst h; simp [outputCSVRows]
  case _ => subst h; simp [outputCSVRows]
  case _ => subst h; simp [outputCSVRows]
  case _ =>
    simp only [outputCSVRows, List.tail_cons]
    split <;> simp_all

/-- C4 (witness): an unrecognized kind yields the header row only. -/
theorem c4_witness : (outputCSVRows demoExportWatch "bogus").tail = [] :=
  (c4_csv_header_and_rows demoExportWatch "bogus").2.2.2.2.2.2.2 (by decide)

/-- C5: in a successful bulk kind=issues run, every exported Issue record
originates from a fetched issue without pull-request linkage, and every
fetched issue without linkage contributes its record to the export — so
issues carrying pull-request linkage are excluded. -/
theorem c5_pr_linked_issues_excluded (api : GitHubAPI) (e : Export)
    (h : fetchGitHubData api "issues" = Except.ok e) :
    (∀ rec ∈ e.issues, ∃ r ∈ servePage 100 api.ownedRepos,
      ∃ i ∈ servePage defaultPerPage (api.issues r.ownerLogin r.name),
        i.pullRequestLinks = false ∧ rec = issueRecord r i) ∧
    (∀ r ∈ servePage 100 api.ownedRepos,
      ∀ i ∈ servePage defaultPerPage (api.issues r.ownerLogin r.name),
        i.pullRequestLinks = false → issueRecord r i ∈ e.issues) := by
  simp only [fetchGitHubData] at h
  rw [foldl_fetch_issues] at h
  injection h with h
  subst h
  constructor
  · intro rec hrec
    simp only [Export.empty, List.nil_append] at hrec
    rw [List.mem_flatMap] at hrec
    obtain ⟨r, hr, hrec⟩ := hrec
    rw [List.mem_map] at hrec
    obtain ⟨i, hi, hrec⟩ := hrec
    rw [List.mem_filter] at hi
    exact ⟨r, hr, i, hi.1, by simpa using hi.2, hrec.symm⟩
  · intro r hr i hi hlinks
    simp only [Export.empty, List.nil_append]
    rw [List.mem_flatMap]
    exact ⟨r, hr, List.mem_map_of_mem _ (List.mem_filter.mpr ⟨hi, by simp [hlinks]⟩)⟩

/-- C5 (witness): the demo world's linkage-free issue is exported. -/
theorem c5_witness : issueRecord demoRepo demoIssue1 ∈ demoIssuesExport.issues :=
  (c5_pr_linked_issues_excluded demoAPI demoIssuesExport (by rfl)).2
    demoRepo (by decide) demoIssue1 (by decide) rfl

/-- C6: every successful bulk run populates at most the requested kind's
collection: the other four collections — watch always among them — come
back empty, whatever the API serves. -/
theorem c6_only_requested_kind (api : GitHubAPI) (kind : String) (e : Export)
    (h : fetchGitHubData api kind = Except.ok e) :
    (kind ≠ "commits" → e.commits = []) ∧
    (kind ≠ "pull_requests" → e.pullRequests = []) ∧
    (kind ≠ "issues" → e.issues = []) ∧
    (kind ≠ "releases" → e.releases = []) ∧
    e.watch = [] := by
  by_cases h1 : kind = "commits"
  · subst h1
    simp only [fetchGitHubData] at h
    rw [foldl_fetch_commits] at h
    injection h with h
    subst h
    simp [Export.empty]
  by_cases h2 : kind = "pull_requests"
  · subst h2
    simp only [fetchGitHubData] at h
    rw [foldl_fetch_prs] at h
    injection h with h
    subst h
    simp [Export.empty]
  by_cases h3 : kind = "issues"
  · subst h3
    simp only [fetchGitHubData] at h
    rw [foldl_fetch_issues] at h
    injection h with h
    subst h
    simp [Export.empty]
  by_cases h4 : kind = "releases"
  · subst h4
    simp only [fetchGitHubData] at h
    rw [foldl_fetch_releases] at h
    injection h with h
    subst h
    simp [Export.empty]
  have hk : kind ∉ (["commits", "pull_requests", "issues", "releases"] : List String) := by
    simp [h1, h2, h3, h4]
  rcases hs : servePage 100 api.ownedRepos with _ | ⟨r, rs⟩
  · simp only [fetchGitHubData] at h
    rw [hs] at h
    simp only [List.foldlM_nil] at h
    have he : Export.empty = e := by
      simpa [pure, Except.pure] using h
    subst he
    simp [Export.empty]
  · simp only [fetchGitHubData] at h
    rw [hs, List.foldlM_cons, fetchStep_unsupported api api.userLogin kind Export.empty r hk] at h
    simp [Bind.bind, Except.bind] at h

/-- C6 (witness): the demo kind=commits run leaves the other four
collections empty. -/
theorem c6_witness :
    demoCommitsExport.pullRequests = [] ∧ demoCommitsExport.issues = [] ∧
    demoCommitsExport.releases = [] ∧ demoCommitsExport.watch = [] :=
  let h := c6_only_requested_kind demoAPI "commits" demoCommitsExport (by rfl)
  ⟨h.2.1 (by decide), h.2.2.1 (by decide), h.2.2.2.1 (by decide), h.2.2.2.2⟩

/-- C7: in event mode, an event whose payload fails to decode is skipped
and processing continues — folding the event list with the bad event
present gives the same result as without it — whereas a page-fetch error
makes the paging loop stop at once with that error, and `run` then returns
the error, so no records accumulated from prior pages reach the output. -/
theorem c7_event_error_policy :
    (∀ (u : String) (ex : Export) (pre post : List EventData) (bad : EventData),
      bad.payload = Except.error () →
      List.foldlM (processEvent u) ex (pre ++ bad :: post) =
        List.foldlM (processEvent u) ex (pre ++ post)) ∧
    (∀ (u : String) (ex : Export) (msg : String)
      (rest : List (Except String (List EventData))),
      fetchEventsLoop u (Except.error msg :: rest) ex = some (ex, some msg)) ∧
    (∀ (api : EventsAPI) (ex : Export) (msg : String),
      fetchGitHubEvents api = some (ex, some msg) →
        runEvents api = some (Except.error msg)) := by
  refine ⟨?_, ?_, ?_⟩
  · intro u ex pre post bad hbad
    exact foldlM_processEvent_skip u bad
      (fun ex2 => processEvent_parseError u ex2 bad hbad) pre post ex
  · intro u ex msg rest
    rfl
  · intro api ex msg h
    simp [runEvents, h]

/-- C7 (witness): a feed page holding a watch event, an undecodable event
and a push event processes exactly like the page without the undecodable
event. -/
theorem c7_witness :
    List.foldlM (processEvent "alice") Export.empty
      ([watchEventDemo] ++ badPayloadEvent :: [pushEventDemo]) =
    List.foldlM (processEvent "alice") Export.empty ([watchEventDemo] ++ [pushEventDemo]) :=
  c7_event_error_policy.1 "alice" Export.empty [watchEventDemo] [pushEventDemo]
    badPayloadEvent rfl

/-- C8: a PushEvent by the authenticated user appends exactly one Commit
per commit of the push — sha and message from the pushed commit, repo from
the event, date the event creation time, author left empty — and a
WatchEvent appends exactly one Watch record.  (The message-present premise
is what the GitHub push payload always provides; its necessity is the
subject of the C10 analysis.) -/
theorem c8_push_watch_records :
    (∀ (u : String) (ex : Export) (e : EventData) (commits : List PushCommitData),
      e.actorLogin.getD "" = u → e.typ = "PushEvent" →
      e.payload = Except.ok (EventPayload.push commits) →
      (∀ c ∈ commits, c.message.isSome) →
      processEvent u ex e = some { ex with commits := ex.commits ++ commits.map (fun c =>
        { repo := e.repoName.getD "", sha := c.sha.getD "",
          message := c.message.getD "", author := "", date := e.createdAt }) }) ∧
    (∀ (u : String) (ex : Export) (e : EventData) (act : Option String),
      e.actorLogin.getD "" = u → e.typ = "WatchEvent" →
      e.payload = Except.ok (EventPayload.watchPayload act) →
      processEvent u ex e = some { ex with watch := ex.watch ++
        [{ repo := e.repoName.getD "", author := "", action := act.getD "",
           date := e.createdAt }] }) := by
  constructor
  · intro u ex e commits ha ht hp hm
    unfold processEvent
    rw [ha, hp, ht]
    simp only [ne_eq, not_true_eq_false, if_false, ite_false]
    exact pushCommits_foldlM _ _ commits ex hm
  · intro u ex e act ha ht hp
    unfold processEvent
    rw [ha, hp, ht]
    simp only [ne_eq, not_true_eq_false, if_false, ite_false]

/-- C8 (witness): the demo PushEvent with two commits yields two Commit
records with empty author, and the demo WatchEvent yields one Watch
record. -/
theorem c8_witness :
    processEvent "alice" Export.empty pushEventDemo = some
      { Export.empty with commits := [⟨"alice/widget", "abc", "first", "", t0⟩,
        ⟨"alice/widget", "def", "second", "", t0⟩] } ∧
    processEvent "alice" Export.empty watchEventDemo = some
      { Export.empty with watch := [⟨"alice/widget", "", "started", t0⟩] } :=
  ⟨c8_push_watch_records.1 "alice" Export.empty pushEventDemo _ rfl rfl rfl (by decide),
   c8_push_watch_records.2 "alice" Export.empty watchEventDemo (some "started") rfl rfl rfl⟩

/-- C9: the CSV row written for a Watch record has 7 cells with the
record's action in position 5 (0-based) — the position the header calls
`Author` — empty ID, Title and State cells, and the date string last. -/
theorem c9_watch_row_columns (e : Export) (w : Watch) (h : w ∈ e.watch) :
    watchRow w ∈ (outputCSVRows e "watch").tail ∧
    watchRow w = ["Watch", w.repo, "", "", "", w.action, w.date.string] ∧
    (watchRow w)[5]? = some w.action ∧
    (watchRow w)[2]? = some "" ∧ (watchRow w)[3]? = some "" ∧
    (watchRow w)[4]? = some "" ∧ (watchRow w)[1]? = some w.repo ∧
    (watchRow w)[6]? = some w.date.string ∧
    csvHeader[5]? = some "Author" := by
  refine ⟨?_, rfl, rfl, rfl, rfl, rfl, rfl, rfl, rfl⟩
  have ht : (outputCSVRows e "watch").tail = e.watch.map watchRow := rfl
  rw [ht]
  exact List.mem_map_of_mem _ h

/-- C9 (witness): the demo Watch record's row, inside the demo export's
CSV rows. -/
theorem c9_witness : watchRow demoWatch ∈ (outputCSVRows demoExportWatch "watch").tail :=
  (c9_watch_row_columns demoExportWatch demoWatch (by decide)).1

/-- C10 (counterexample): the claim says converting a successfully parsed
PushEvent payload to Commit records is total even when a pushed commit
lacks its optional message.  The code dereferences `commit.Message` raw
(main.go:418): on a decoded push payload whose commit has no message, the
loop body hits the nil dereference — modelled by `none`, the panic — so
record construction does not succeed. -/
theorem c10_counterexample :
    pushEventNilMsg.actorLogin.getD "" = "alice" ∧
    pushEventNilMsg.typ = "PushEvent" ∧
    pushEventNilMsg.payload = Except.ok (EventPayload.push [⟨some "abc", none⟩]) ∧
    processEvent "alice" Export.empty pushEventNilMsg = none :=
  ⟨rfl, rfl, rfl, rfl⟩

/-- C10 (amended): converting a successfully parsed PushEvent payload of
the authenticated user succeeds exactly when every pushed commit carries a
message; a commit with the message field absent makes the raw dereference
fail (a runtime panic), the one non-nil-safe access in the event loop. -/
theorem c10_push_conversion_totality (u : String) (ex : Export) (e : EventData)
    (commits : List PushCommitData)
    (ha : e.actorLogin.getD "" = u) (ht : e.typ = "PushEvent")
    (hp : e.payload = Except.ok (EventPayload.push commits)) :
    (processEvent u ex e).isSome ↔ ∀ c ∈ commits, c.message.isSome := by
  unfold processEvent
  rw [ha, hp, ht]
  simp only [ne_eq, not_true_eq_false, if_false, ite_false]
  exact pushCommits_foldlM_isSome _ _ commits ex

/-- C10 (witness): the conversion succeeds on the demo push whose commits
all carry messages. -/
theorem c10_witness : (processEvent "alice" Export.empty pushEventDemo).isSome :=
  (c10_push_conversion_totality "alice" Export.empty pushEventDemo _ rfl rfl rfl).mpr
    (by decide)

end GithubExporter
